import Mathlib

/-!
Verification of the Student Management API (FastAPI student registry).

The registry is an in-memory list of student records plus a process-wide
next-id counter.  Handlers: list, get by id, create (stores age + 20),
partial update (stores submitted values verbatim), delete.  The list
endpoint is rate-limited to 5 requests per minute per client address by
external middleware.
-/

namespace StudentApi

/-- A stored student record (the dict stored in `students_db`). -/
structure Student where
  id : Int
  name : String
  age : Int
  email : String
  course : String
deriving DecidableEq, Repr

/-- Payload of a create request: all four fields required. -/
structure StudentCreate where
  name : String
  age : Int
  email : String
  course : String
deriving DecidableEq, Repr

/-- Payload of an update request: every field optional (`None` when absent). -/
structure StudentUpdate where
  name : Option String
  age : Option Int
  email : Option String
  course : Option String
deriving DecidableEq, Repr

/-- An `HTTPException` raised by a handler. -/
structure HTTPError where
  status_code : Nat
  detail : String
deriving DecidableEq, Repr

/-- The process-wide mutable state: `students_db` and `next_id`. -/
structure Registry where
  students_db : List Student
  next_id : Int
deriving DecidableEq, Repr

/-- Module initialisation: `students_db = []`, `next_id = 1`. -/
def initialState : Registry := ⟨[], 1⟩

/-- `next((s for s in students_db if s["id"] == student_id), None)`. -/
def findStudent (db : List Student) (student_id : Int) : Option Student :=
  db.find? (fun s => s.id == student_id)

/-- Handler for `GET /students`: returns `students_db`. -/
def get_students (db : Registry) : List Student :=
  db.students_db

/-- Handler for `GET /students/{student_id}`: first record with matching id,
or a 404 `HTTPException`. -/
def get_student (db : Registry) (student_id : Int) : Except HTTPError Student :=
  match findStudent db.students_db student_id with
  | none => Except.error ⟨404, "Student not found"⟩
  | some s => Except.ok s

/-- Handler for `POST /students`: builds the new record with id `next_id`
and age `student.age + 20`, appends it to `students_db`, increments
`next_id`, returns the new record. -/
def create_student (db : Registry) (student : StudentCreate) : Registry × Student :=
  let new_student : Student :=
    ⟨db.next_id, student.name, student.age + 20, student.email, student.course⟩
  (⟨db.students_db ++ [new_student], db.next_id + 1⟩, new_student)

/-- The four `if ... is not None` assignments of `update_student`, applied to
one record: every field present in the request overwrites the stored field,
every absent (`None`) field is kept. -/
def applyUpdate (s : Student) (u : StudentUpdate) : Student :=
  { s with
    name := u.name.getD s.name
    age := u.age.getD s.age
    email := u.email.getD s.email
    course := u.course.getD s.course }

/-- In-place mutation of the first record whose id matches (the dict found by
`next(...)` is mutated inside `students_db`). -/
def updateFirst (l : List Student) (student_id : Int) (u : StudentUpdate) : List Student :=
  match l with
  | [] => []
  | s :: rest =>
    if s.id == student_id then applyUpdate s u :: rest
    else s :: updateFirst rest student_id u

/-- Handler for `PUT /students/{student_id}`: 404 if no record matches,
otherwise overwrite the fields present in the request on the matching record
and return it. -/
def update_student (db : Registry) (student_id : Int) (u : StudentUpdate) :
    Except HTTPError (Registry × Student) :=
  match findStudent db.students_db student_id with
  | none => Except.error ⟨404, "Student not found"⟩
  | some s =>
    Except.ok (⟨updateFirst db.students_db student_id u, db.next_id⟩, applyUpdate s u)

/-- Handler for `DELETE /students/{student_id}`: 404 if no record matches,
otherwise `students_db = [s for s in students_db if s["id"] != student_id]`. -/
def delete_student (db : Registry) (student_id : Int) : Except HTTPError Registry :=
  match findStudent db.students_db student_id with
  | none => Except.error ⟨404, "Student not found"⟩
  | some _ => Except.ok ⟨db.students_db.filter (fun s => s.id != student_id), db.next_id⟩

/-- A JSON response body. -/
inductive Body where
  | student (s : Student)
  | students (l : List Student)
  | empty
  | err (detail : String)
deriving DecidableEq, Repr

/-- An HTTP response: status code plus body. -/
structure Response where
  status : Nat
  body : Body
deriving DecidableEq, Repr

/-- A request to one of the registry endpoints. -/
inductive Op where
  | list
  | get (student_id : Int)
  | create (s : StudentCreate)
  | update (student_id : Int) (u : StudentUpdate)
  | delete (student_id : Int)
deriving DecidableEq, Repr

/-- Dispatch of one request: the FastAPI routing layer plus the declared
success status codes (200, 201 for create, 204 for delete) and the
`HTTPException`-to-response translation. -/
def handle (db : Registry) : Op → Registry × Response
  | Op.list => (db, ⟨200, Body.students (get_students db)⟩)
  | Op.get student_id =>
    match get_student db student_id with
    | Except.ok s => (db, ⟨200, Body.student s⟩)
    | Except.error e => (db, ⟨e.status_code, Body.err e.detail⟩)
  | Op.create s =>
    let r := create_student db s
    (r.1, ⟨201, Body.student r.2⟩)
  | Op.update student_id u =>
    match update_student db student_id u with
    | Except.ok r => (r.1, ⟨200, Body.student r.2⟩)
    | Except.error e => (db, ⟨e.status_code, Body.err e.detail⟩)
  | Op.delete student_id =>
    match delete_student db student_id with
    | Except.ok db2 => (db2, ⟨204, Body.empty⟩)
    | Except.error e => (db, ⟨e.status_code, Body.err e.detail⟩)

/-- The registry state after one request. -/
def applyOp (db : Registry) (op : Op) : Registry :=
  (handle db op).1

/-- The registry state after a sequence of requests. -/
def runOps (db : Registry) (ops : List Op) : Registry :=
  ops.foldl applyOp db

/-- The id invariant: `next_id` is at least 1, every stored id lies in
`[1, next_id)`, and stored ids are pairwise distinct. -/
def goodIds (db : Registry) : Prop :=
  1 ≤ db.next_id ∧
  (∀ s ∈ db.students_db, 1 ≤ s.id ∧ s.id < db.next_id) ∧
  (db.students_db.map Student.id).Nodup

/-- The seven HTTP routes of the application, as declared by the route
decorators in the source. -/
inductive Endpoint where
  | root
  | health
  | listStudents
  | getStudent
  | createStudent
  | updateStudent
  | deleteStudent
deriving DecidableEq, Repr

/-- Which route carries a rate-limit decorator: only `GET /students`
(handler `get_students`) is declared with `limiter.limit("5/minute")`. -/
def isRateLimited : Endpoint → Bool
  | Endpoint.listStudents => true
  | _ => false

/-- Modelled from the spec: the limiter implementation lives in the external
`slowapi` library, not in this repository; the spec fixes its policy as
5 requests per minute per client address.  The limiter state keeps, per
client address (the limiter key), the times of that client's earlier
requests to the list endpoint. -/
def RateState : Type := String → List Nat

/-- Modelled from the spec: the limiter state at process start. -/
def initRateState : RateState := fun _ => []

/-- Modelled from the spec: a request at time `t` is allowed when fewer than
5 of the client's earlier requests fall within the last 60 seconds. -/
def rateLimitAllows (history : List Nat) (t : Nat) : Bool :=
  decide ((history.filter fun t0 => decide (t - t0 < 60)).length < 5)

/-- Modelled from the spec: record the request of client `c` at time `t` and
report whether it is allowed; other clients' histories are untouched. -/
def rateLimitStep (st : RateState) (c : String) (t : Nat) : RateState × Bool :=
  ((fun c2 => if c2 = c then t :: st c2 else st c2), rateLimitAllows (st c) t)

/-- Modelled from the spec: the rate-limited `GET /students` route — 200
with the student list when the limiter allows the request, 429
(`RateLimitExceeded`) otherwise. -/
def list_students_limited (st : RateState) (c : String) (t : Nat) (db : Registry) :
    RateState × Response :=
  if (rateLimitStep st c t).2
  then ((rateLimitStep st c t).1, ⟨200, Body.students (get_students db)⟩)
  else ((rateLimitStep st c t).1, ⟨429, Body.err "Rate limit exceeded: 5 per 1 minute"⟩)

/-- Modelled from the spec: one client's successive `GET /students` requests
at the given times, threading the limiter state. -/
def runListRequests (st : RateState) (c : String) (db : Registry) : List Nat → List Response
  | [] => []
  | t :: ts =>
    (list_students_limited st c t db).2 ::
      runListRequests (list_students_limited st c t db).1 c db ts

/-- A field of a JSON object in a `PUT /students/{id}` body: missing from
the object, an explicit JSON null, or a value. -/
inductive JsonField (α : Type) where
  | absent
  | null
  | val (a : α)
deriving DecidableEq, Repr

/-- Parsing of one optional field of `StudentUpdate` (declared
`Optional[T] = None`): a field missing from the body takes the default
`None`, an explicit null is accepted as `None`, a value is retained. -/
def parseField {α : Type} : JsonField α → Option α
  | JsonField.absent => none
  | JsonField.null => none
  | JsonField.val a => some a

/-- Parsing of a whole `PUT /students/{id}` body into a `StudentUpdate`. -/
def parseUpdate (n : JsonField String) (a : JsonField Int)
    (e : JsonField String) (c : JsonField String) : StudentUpdate :=
  ⟨parseField n, parseField a, parseField e, parseField c⟩

/-- Replace an explicit null by an absent field. -/
def denull {α : Type} : JsonField α → JsonField α
  | JsonField.null => JsonField.absent
  | f => f

/-- A sample registry for the concrete witnesses: two students, next id 3. -/
def dbSample : Registry :=
  ⟨[⟨1, "Alice", 42, "alice@example.com", "Mathematics"⟩,
    ⟨2, "Bob", 30, "bob@example.com", "Chemistry"⟩], 3⟩

/-- `dbSample` after updating student 2's age to 22. -/
def bobUpdated : Student := ⟨2, "Bob", 22, "bob@example.com", "Chemistry"⟩

/-- The registry `dbSample` after `PUT /students/2` with body `{"age": 22}`. -/
def dbSampleUpdated : Registry :=
  ⟨[⟨1, "Alice", 42, "alice@example.com", "Mathematics"⟩, bobUpdated], 3⟩

/-- Student 1 of `dbSample` after updating only the course. -/
def alicePhysics : Student := ⟨1, "Alice", 42, "alice@example.com", "Physics"⟩

/-- The registry `dbSample` after `PUT /students/1` with body
`{"course": "Physics"}`. -/
def dbSamplePhysics : Registry :=
  ⟨[alicePhysics, ⟨2, "Bob", 30, "bob@example.com", "Chemistry"⟩], 3⟩

/-! ### Basic lemmas about the registry operations -/

theorem findStudent_nil (student_id : Int) : findStudent [] student_id = none := rfl

theorem findStudent_cons (x : Student) (l : List Student) (student_id : Int) :
    findStudent (x :: l) student_id =
      if x.id = student_id then some x else findStudent l student_id := by
  by_cases h : x.id = student_id
  · simp [findStudent, List.find?, h]
  · have hb : (x.id == student_id) = false := by simpa using h
    simp [findStudent, List.find?, hb, h]

theorem findStudent_eq_none {l : List Student} {student_id : Int} :
    findStudent l student_id = none ↔ ∀ s ∈ l, s.id ≠ student_id := by
  unfold findStudent
  rw [List.find?_eq_none]
  constructor
  · intro h s hs
    have := h s hs
    simpa using this
  · intro h s hs
    simpa using h s hs

theorem findStudent_some_id {l : List Student} {student_id : Int} {s : Student}
    (h : findStudent l student_id = some s) : s.id = student_id := by
  have := List.find?_some h
  simpa using this

theorem findStudent_some_mem {l : List Student} {student_id : Int} {s : Student}
    (h : findStudent l student_id = some s) : s ∈ l :=
  List.mem_of_find?_eq_some h

theorem findStudent_append {pre post : List Student} {x : Student} {student_id : Int}
    (hpre : ∀ p ∈ pre, p.id ≠ student_id) (hx : x.id = student_id) :
    findStudent (pre ++ x :: post) student_id = some x := by
  induction pre with
  | nil => simp [findStudent_cons, hx]
  | cons p pre ih =>
    have hp : p.id ≠ student_id := hpre p (List.mem_cons_self p pre)
    rw [List.cons_append, findStudent_cons, if_neg hp]
    exact ih fun q hq => hpre q (List.mem_cons_of_mem p hq)

theorem applyUpdate_id (s : Student) (u : StudentUpdate) :
    (applyUpdate s u).id = s.id := rfl

/-- The first record that `next(...)` finds splits the list into an untouched
prefix, the record itself, and an untouched suffix; the in-place mutation
changes only the record. -/
theorem findStudent_decomp {l : List Student} {student_id : Int} {s : Student}
    (h : findStudent l student_id = some s) :
    ∃ pre post,
      l = pre ++ s :: post ∧
      (∀ p ∈ pre, p.id ≠ student_id) ∧
      ∀ u, updateFirst l student_id u = pre ++ applyUpdate s u :: post := by
  induction l with
  | nil => simp [findStudent] at h
  | cons x l ih =>
    rw [findStudent_cons] at h
    by_cases hx : x.id = student_id
    · rw [if_pos hx] at h
      cases h
      refine ⟨[], l, by simp, by simp, fun u => ?_⟩
      unfold updateFirst
      simp [beq_iff_eq, hx]
    · rw [if_neg hx] at h
      obtain ⟨pre, post, hl, hpre, hupd⟩ := ih h
      refine ⟨x :: pre, post, by simp [hl], ?_, fun u => ?_⟩
      · intro p hp
        rcases List.mem_cons.mp hp with hpx | hpp
        · exact hpx ▸ hx
        · exact hpre p hpp
      · unfold updateFirst
        simp only [beq_iff_eq, if_neg hx]
        rw [hupd u]
        simp

theorem updateFirst_map_id (l : List Student) (student_id : Int) (u : StudentUpdate) :
    (updateFirst l student_id u).map Student.id = l.map Student.id := by
  induction l with
  | nil => rfl
  | cons x l ih =>
    unfold updateFirst
    by_cases hx : x.id = student_id
    · simp [beq_iff_eq, hx, applyUpdate_id]
    · simp [beq_iff_eq, hx, ih]

theorem get_student_of_none {db : Registry} {student_id : Int}
    (h : findStudent db.students_db student_id = none) :
    get_student db student_id = Except.error ⟨404, "Student not found"⟩ := by
  simp only [get_student, h]

theorem get_student_of_some {db : Registry} {student_id : Int} {s : Student}
    (h : findStudent db.students_db student_id = some s) :
    get_student db student_id = Except.ok s := by
  simp only [get_student, h]

theorem update_student_of_none {db : Registry} {student_id : Int} (u : StudentUpdate)
    (h : findStudent db.students_db student_id = none) :
    update_student db student_id u = Except.error ⟨404, "Student not found"⟩ := by
  simp only [update_student, h]

theorem update_student_of_some {db : Registry} {student_id : Int} {s : Student}
    (u : StudentUpdate) (h : findStudent db.students_db student_id = some s) :
    update_student db student_id u =
      Except.ok (⟨updateFirst db.students_db student_id u, db.next_id⟩, applyUpdate s u) := by
  simp only [update_student, h]

theorem delete_student_of_none {db : Registry} {student_id : Int}
    (h : findStudent db.students_db student_id = none) :
    delete_student db student_id = Except.error ⟨404, "Student not found"⟩ := by
  simp only [delete_student, h]

theorem delete_student_of_some {db : Registry} {student_id : Int} {s : Student}
    (h : findStudent db.students_db student_id = some s) :
    delete_student db student_id =
      Except.ok ⟨db.students_db.filter fun s2 => s2.id != student_id, db.next_id⟩ := by
  simp only [delete_student, h]

/-! ### The id discipline of reachable registry states -/

theorem goodIds_initial : goodIds initialState := by
  refine ⟨le_refl 1, ?_, ?_⟩ <;> simp [initialState]

theorem applyOp_list (db : Registry) : applyOp db Op.list = db := rfl

theorem applyOp_get (db : Registry) (student_id : Int) :
    applyOp db (Op.get student_id) = db := by
  cases h : get_student db student_id <;> simp [applyOp, handle, h]

theorem applyOp_create (db : Registry) (s : StudentCreate) :
    applyOp db (Op.create s) = (create_student db s).1 := rfl

theorem applyOp_next_id (db : Registry) (op : Op) :
    db.next_id ≤ (applyOp db op).next_id := by
  cases op with
  | list => exact le_refl _
  | get student_id => rw [applyOp_get]
  | create s =>
    rw [applyOp_create]
    show db.next_id ≤ db.next_id + 1
    omega
  | update student_id u =>
    cases hf : findStudent db.students_db student_id <;>
      simp [applyOp, handle, update_student, hf]
  | delete student_id =>
    cases hf : findStudent db.students_db student_id <;>
      simp [applyOp, handle, delete_student, hf]

theorem goodIds_applyOp {db : Registry} (h : goodIds db) (op : Op) :
    goodIds (applyOp db op) := by
  obtain ⟨h1, hb, hn⟩ := h
  cases op with
  | list => exact ⟨h1, hb, hn⟩
  | get student_id => rw [applyOp_get]; exact ⟨h1, hb, hn⟩
  | create s =>
    rw [applyOp_create]
    refine ⟨show (1:Int) ≤ db.next_id + 1 by omega, ?_, ?_⟩
    · intro s2 hs2
      show 1 ≤ s2.id ∧ s2.id < db.next_id + 1
      rcases List.mem_append.mp hs2 with hmem | hnew
      · have := hb s2 hmem
        exact ⟨this.1, by omega⟩
      · have hs2e : s2 = ⟨db.next_id, s.name, s.age + 20, s.email, s.course⟩ := by
          simpa using hnew
        refine ⟨?_, ?_⟩
        · rw [hs2e]; exact h1
        · rw [hs2e]
          show db.next_id < db.next_id + 1
          omega
    · show ((db.students_db ++
        [(⟨db.next_id, s.name, s.age + 20, s.email, s.course⟩ : Student)]).map Student.id).Nodup
      rw [List.map_append, List.nodup_append]
      refine ⟨hn, by simp, ?_⟩
      intro a ha ha2
      have ha3 : a = db.next_id := by simpa using ha2
      obtain ⟨s2, hs2, hid⟩ := List.mem_map.mp ha
      have := (hb s2 hs2).2
      omega
  | update student_id u =>
    cases hf : findStudent db.students_db student_id with
    | none =>
      simp only [applyOp, handle, update_student, hf]
      exact ⟨h1, hb, hn⟩
    | some s =>
      simp only [applyOp, handle, update_student, hf]
      refine ⟨h1, ?_, ?_⟩
      · intro s2 hs2
        have : s2.id ∈ (updateFirst db.students_db student_id u).map Student.id :=
          List.mem_map_of_mem Student.id hs2
        rw [updateFirst_map_id] at this
        obtain ⟨s3, hs3, hid⟩ := List.mem_map.mp this
        rw [← hid]
        exact hb s3 hs3
      · show ((updateFirst db.students_db student_id u).map Student.id).Nodup
        rw [updateFirst_map_id]
        exact hn
  | delete student_id =>
    cases hf : findStudent db.students_db student_id with
    | none =>
      simp only [applyOp, handle, delete_student, hf]
      exact ⟨h1, hb, hn⟩
    | some s =>
      simp only [applyOp, handle, delete_student, hf]
      refine ⟨h1, ?_, ?_⟩
      · intro s2 hs2
        exact hb s2 (List.mem_of_mem_filter hs2)
      · show (((db.students_db.filter _)).map Student.id).Nodup
        exact hn.sublist (List.Sublist.map Student.id (List.filter_sublist _))

theorem goodIds_runOps {db : Registry} (h : goodIds db) (ops : List Op) :
    goodIds (runOps db ops) ∧ db.next_id ≤ (runOps db ops).next_id := by
  induction ops generalizing db with
  | nil => exact ⟨h, le_refl _⟩
  | cons op ops ih =>
    have h2 := goodIds_applyOp h op
    obtain ⟨hg, hle2⟩ := ih h2
    refine ⟨hg, le_trans (applyOp_next_id db op) hle2⟩

/-! ### Lemmas about the rate limiter model -/

theorem rateLimitStep_self (st : RateState) (c : String) (t : Nat) :
    (rateLimitStep st c t).1 c = t :: st c := by
  simp [rateLimitStep]

theorem rateLimitStep_other (st : RateState) (c c2 : String) (t : Nat) (h : c2 ≠ c) :
    (rateLimitStep st c t).1 c2 = st c2 := by
  simp [rateLimitStep, h]

theorem list_students_limited_fst (st : RateState) (c : String) (t : Nat) (db : Registry) :
    (list_students_limited st c t db).1 = (rateLimitStep st c t).1 := by
  unfold list_students_limited
  split <;> rfl

theorem runListRequests_getElem (c : String) (db : Registry) (ts : List Nat)
    (hwin : ∀ t0 ∈ ts, ∀ t ∈ ts, t - t0 < 60) :
    ∀ (st : RateState) (i : Nat), i < ts.length →
    (∀ t0 ∈ st c, ∀ t ∈ ts, t - t0 < 60) →
    (runListRequests st c db ts)[i]? =
      some (if (st c).length + i < 5
        then Response.mk 200 (Body.students db.students_db)
        else Response.mk 429 (Body.err "Rate limit exceeded: 5 per 1 minute")) := by
  induction ts with
  | nil => intro st i hi _; simp at hi
  | cons t ts ih =>
    intro st i hi hst
    have hallow : rateLimitAllows (st c) t = decide ((st c).length < 5) := by
      unfold rateLimitAllows
      congr 1
      rw [List.filter_eq_self.mpr]
      intro a ha
      exact decide_eq_true (hst a ha t (List.mem_cons_self t ts))
    cases i with
    | zero =>
      show ((list_students_limited st c t db).2 :: _)[0]? = _
      rw [List.getElem?_cons_zero]
      unfold list_students_limited
      have hsnd : (rateLimitStep st c t).2 = rateLimitAllows (st c) t := rfl
      rw [hsnd, hallow]
      by_cases hlt : (st c).length < 5
      · rw [if_pos (by simpa using hlt), if_pos (by simpa using hlt)]
        rfl
      · rw [if_neg (by simpa using hlt), if_neg (by simpa using hlt)]
    | succ i =>
      show ((list_students_limited st c t db).2 :: _)[i + 1]? = _
      rw [List.getElem?_cons_succ]
      have hwin2 : ∀ t0 ∈ ts, ∀ t2 ∈ ts, t2 - t0 < 60 := fun t0 h0 t2 h2 =>
        hwin t0 (List.mem_cons_of_mem t h0) t2 (List.mem_cons_of_mem t h2)
      have hst2 : ∀ t0 ∈ (list_students_limited st c t db).1 c, ∀ t2 ∈ ts, t2 - t0 < 60 := by
        rw [list_students_limited_fst, rateLimitStep_self]
        intro t0 h0 t2 h2
        rcases List.mem_cons.mp h0 with h0t | h0h
        · rw [h0t]
          exact hwin t (List.mem_cons_self t ts) t2 (List.mem_cons_of_mem t h2)
        · exact hst t0 h0h t2 (List.mem_cons_of_mem t h2)
      have hi2 : i < ts.length := by simpa using hi
      rw [ih hwin2 _ i hi2 hst2]
      rw [list_students_limited_fst, rateLimitStep_self]
      have hlen : (t :: st c).length + i = (st c).length + (i + 1) := by
        simp only [List.length_cons]
        omega
      rw [hlen]

theorem parseField_denull {α : Type} (f : JsonField α) :
    parseField (denull f) = parseField f := by
  cases f <;> rfl

/-! ### The claims -/

/-- Claim C1: a create request with all four required fields stores and
returns a record whose age is the submitted age plus 20; the verbatim input
age is not retained; the new record (with its assigned id) is appended to
the collection and returned with status 201. -/
theorem C1_create_age_plus_20 (db : Registry) (student : StudentCreate) :
    (create_student db student).2.age = student.age + 20 ∧
    (create_student db student).2.age ≠ student.age ∧
    (create_student db student).1.students_db
      = db.students_db ++ [(create_student db student).2] ∧
    handle db (Op.create student)
      = ((create_student db student).1,
          ⟨201, Body.student (create_student db student).2⟩) := by
  refine ⟨rfl, ?_, rfl, rfl⟩
  show student.age + 20 ≠ student.age
  omega

/-- Claim C2: an update whose body includes an age value for an existing
student id stores exactly the submitted age — no +20 transform — and
returns the updated record with status 200. -/
theorem C2_update_age_verbatim (db : Registry) (student_id : Int)
    (u : StudentUpdate) (a : Int) (ha : u.age = some a)
    (db2 : Registry) (ret : Student)
    (h : update_student db student_id u = Except.ok (db2, ret)) :
    ret.age = a ∧
    findStudent db2.students_db student_id = some ret ∧
    handle db (Op.update student_id u) = (db2, ⟨200, Body.student ret⟩) := by
  cases hf : findStudent db.students_db student_id with
  | none =>
    rw [update_student_of_none u hf] at h
    exact Except.noConfusion h
  | some s =>
    rw [update_student_of_some u hf, Except.ok.injEq, Prod.mk.injEq] at h
    obtain ⟨hdb2, hret⟩ := h
    obtain ⟨pre, post, hsplit, hpre, hupd⟩ := findStudent_decomp hf
    refine ⟨?_, ?_, ?_⟩
    · rw [← hret]
      show u.age.getD s.age = a
      rw [ha]
      rfl
    · rw [← hdb2]
      show findStudent (updateFirst db.students_db student_id u) student_id = some ret
      rw [hupd u, ← hret]
      exact findStudent_append hpre (by rw [applyUpdate_id]; exact findStudent_some_id hf)
    · simp only [handle, update_student_of_some u hf]
      rw [hdb2, hret]

/-- Concrete run of claim C2: updating student 2 of `dbSample` with body
`{"age": 22}` stores and returns age exactly 22. -/
theorem C2_witness :
    bobUpdated.age = 22 ∧
    findStudent dbSampleUpdated.students_db 2 = some bobUpdated ∧
    handle dbSample (Op.update 2 ⟨none, some 22, none, none⟩) =
      (dbSampleUpdated, ⟨200, Body.student bobUpdated⟩) :=
  C2_update_age_verbatim dbSample 2 ⟨none, some 22, none, none⟩ 22 rfl
    dbSampleUpdated bobUpdated rfl

/-- Claim C3: from the initial state, `next_id` starts at 1 and a create
assigns exactly the current `next_id`; a create immediately after another
assigns an id larger by exactly 1; stored ids are pairwise distinct in every
reachable state; and the id a create assigns is strictly below every id any
later create assigns — so an id is never reassigned, deletions included. -/
theorem C3_id_discipline (ops ops2 : List Op) (s s2 : StudentCreate) :
    initialState.next_id = 1 ∧
    ((runOps initialState ops).students_db.map Student.id).Nodup ∧
    (create_student (runOps initialState ops) s).2.id = (runOps initialState ops).next_id ∧
    (create_student (create_student (runOps initialState ops) s).1 s2).2.id
      = (create_student (runOps initialState ops) s).2.id + 1 ∧
    (create_student (runOps initialState ops) s).2.id
      < (create_student (runOps (applyOp (runOps initialState ops) (Op.create s)) ops2) s2).2.id := by
  obtain ⟨hg, -⟩ := goodIds_runOps goodIds_initial ops
  obtain ⟨-, -, hn⟩ := hg
  refine ⟨rfl, hn, rfl, rfl, ?_⟩
  have h1 : (applyOp (runOps initialState ops) (Op.create s)).next_id
      = (runOps initialState ops).next_id + 1 := rfl
  have h2 := (goodIds_runOps (goodIds_applyOp
    (goodIds_runOps goodIds_initial ops).1 (Op.create s)) ops2).2
  show (runOps initialState ops).next_id
    < (runOps (applyOp (runOps initialState ops) (Op.create s)) ops2).next_id
  omega

/-- Claim C4: a successful partial update changes exactly the matched
record: the collection splits into an untouched prefix, the updated record,
and an untouched suffix; each of the four fields of the updated record is
the submitted value when present and the old value when absent; the id and
the next-id counter are unchanged. -/
theorem C4_update_frame (db : Registry) (student_id : Int) (u : StudentUpdate)
    (db2 : Registry) (ret : Student)
    (h : update_student db student_id u = Except.ok (db2, ret)) :
    db2.next_id = db.next_id ∧
    ∃ pre s post,
      db.students_db = pre ++ s :: post ∧
      s.id = student_id ∧
      (∀ p ∈ pre, p.id ≠ student_id) ∧
      db2.students_db = pre ++ ret :: post ∧
      ret.id = s.id ∧
      ret.name = u.name.getD s.name ∧
      ret.age = u.age.getD s.age ∧
      ret.email = u.email.getD s.email ∧
      ret.course = u.course.getD s.course := by
  cases hf : findStudent db.students_db student_id with
  | none =>
    rw [update_student_of_none u hf] at h
    exact Except.noConfusion h
  | some s =>
    rw [update_student_of_some u hf, Except.ok.injEq, Prod.mk.injEq] at h
    obtain ⟨hdb2, hret⟩ := h
    obtain ⟨pre, post, hsplit, hpre, hupd⟩ := findStudent_decomp hf
    refine ⟨by rw [← hdb2], pre, s, post, hsplit, findStudent_some_id hf, hpre,
      ?_, ?_, ?_, ?_, ?_, ?_⟩
    · rw [← hdb2]
      show updateFirst db.students_db student_id u = pre ++ ret :: post
      rw [hupd u, ← hret]
    · rw [← hret]; exact applyUpdate_id s u
    · rw [← hret]; rfl
    · rw [← hret]; rfl
    · rw [← hret]; rfl
    · rw [← hret]; rfl

/-- Concrete run of claim C4: `PUT /students/1` on `dbSample` with body
`{"course": "Physics"}` changes only student 1's course. -/
theorem C4_witness :
    dbSamplePhysics.next_id = dbSample.next_id ∧
    ∃ pre s post,
      dbSample.students_db = pre ++ s :: post ∧
      s.id = 1 ∧
      (∀ p ∈ pre, p.id ≠ 1) ∧
      dbSamplePhysics.students_db = pre ++ alicePhysics :: post ∧
      alicePhysics.id = s.id ∧
      alicePhysics.name = (StudentUpdate.mk none none none (some "Physics")).name.getD s.name ∧
      alicePhysics.age = (StudentUpdate.mk none none none (some "Physics")).age.getD s.age ∧
      alicePhysics.email = (StudentUpdate.mk none none none (some "Physics")).email.getD s.email ∧
      alicePhysics.course =
        (StudentUpdate.mk none none none (some "Physics")).course.getD s.course :=
  C4_update_frame dbSample 1 ⟨none, none, none, some "Physics"⟩ dbSamplePhysics alicePhysics rfl

/-- Claim C5: Get returns the stored student whose id matches when one
exists, fails with 404 and detail "Student not found" exactly when no stored
student has the id (and that is the only possible error), and leaves the
registry unchanged in both cases. -/
theorem C5_get_semantics (db : Registry) (student_id : Int) :
    (∀ s, get_student db student_id = Except.ok s →
      s ∈ db.students_db ∧ s.id = student_id) ∧
    (get_student db student_id = Except.error ⟨404, "Student not found"⟩ ↔
      ∀ s ∈ db.students_db, s.id ≠ student_id) ∧
    (∀ e, get_student db student_id = Except.error e → e = ⟨404, "Student not found"⟩) ∧
    (handle db (Op.get student_id)).1 = db := by
  refine ⟨?_, ⟨?_, ?_⟩, ?_, applyOp_get db student_id⟩
  · intro s hs
    cases hf : findStudent db.students_db student_id with
    | none =>
      rw [get_student_of_none hf] at hs
      exact Except.noConfusion hs
    | some s2 =>
      rw [get_student_of_some hf, Except.ok.injEq] at hs
      rw [← hs]
      exact ⟨findStudent_some_mem hf, findStudent_some_id hf⟩
  · intro he
    cases hf : findStudent db.students_db student_id with
    | none => exact findStudent_eq_none.mp hf
    | some s2 =>
      rw [get_student_of_some hf] at he
      exact Except.noConfusion he
  · intro hnone
    exact get_student_of_none (findStudent_eq_none.mpr hnone)
  · intro e he
    cases hf : findStudent db.students_db student_id with
    | none =>
      rw [get_student_of_none hf, Except.error.injEq] at he
      exact he.symm
    | some s2 =>
      rw [get_student_of_some hf] at he
      exact Except.noConfusion he

/-- Claim C6: Delete fails with 404 exactly when no stored student has the
id; a successful delete answers 204 with an empty body, removes exactly the
records with that id (keeping the others in order, counter untouched), and a
Get on the same id afterwards fails with 404 "Student not found". -/
theorem C6_delete_semantics (db : Registry) (student_id : Int) :
    (delete_student db student_id = Except.error ⟨404, "Student not found"⟩ ↔
      ∀ s ∈ db.students_db, s.id ≠ student_id) ∧
    (∀ db2, delete_student db student_id = Except.ok db2 →
      handle db (Op.delete student_id) = (db2, ⟨204, Body.empty⟩) ∧
      (∀ s, s ∈ db2.students_db ↔ s ∈ db.students_db ∧ s.id ≠ student_id) ∧
      db2.students_db.Sublist db.students_db ∧
      db2.next_id = db.next_id ∧
      get_student db2 student_id = Except.error ⟨404, "Student not found"⟩) ∧
    (∀ e, delete_student db student_id = Except.error e → e = ⟨404, "Student not found"⟩) := by
  refine ⟨⟨?_, ?_⟩, ?_, ?_⟩
  · intro he
    cases hf : findStudent db.students_db student_id with
    | none => exact findStudent_eq_none.mp hf
    | some s2 =>
      rw [delete_student_of_some hf] at he
      exact Except.noConfusion he
  · intro hnone
    exact delete_student_of_none (findStudent_eq_none.mpr hnone)
  · intro db2 h
    cases hf : findStudent db.students_db student_id with
    | none =>
      rw [delete_student_of_none hf] at h
      exact Except.noConfusion h
    | some s2 =>
      rw [delete_student_of_some hf, Except.ok.injEq] at h
      refine ⟨?_, ?_, ?_, ?_, ?_⟩
      · simp only [handle, delete_student_of_some hf]
        rw [h]
      · intro s3
        rw [← h]
        show s3 ∈ db.students_db.filter (fun s2 => s2.id != student_id) ↔ _
        simp [List.mem_filter, bne_iff_ne]
      · rw [← h]
        exact List.filter_sublist db.students_db
      · rw [← h]
      · rw [← h]
        refine get_student_of_none (findStudent_eq_none.mpr ?_)
        intro s3 h3
        have := (List.mem_filter.mp h3).2
        simpa [bne_iff_ne] using this
  · intro e he
    cases hf : findStudent db.students_db student_id with
    | none =>
      rw [delete_student_of_none hf, Except.error.injEq] at he
      exact he.symm
    | some s2 =>
      rw [delete_student_of_some hf] at he
      exact Except.noConfusion he

/-- Claim C7: List answers 200 with the full stored sequence, unchanged and
unfiltered, leaving the registry as it was; a create appends its new record
at the end of that sequence. -/
theorem C7_list_insertion_order (db : Registry) (s : StudentCreate) :
    handle db Op.list = (db, ⟨200, Body.students db.students_db⟩) ∧
    get_students db = db.students_db ∧
    get_students (create_student db s).1 = get_students db ++ [(create_student db s).2] :=
  ⟨rfl, rfl, rfl⟩

/-- Claim C8: for one client address, among `GET /students` requests all
made within one 60-second window, the first five answer 200 with the student
list and the sixth and every later one answer 429; only the list route
carries the rate-limit decorator, and one client's request leaves every
other client's limiter history untouched. -/
theorem C8_rate_limit (c : String) (db : Registry) (ts : List Nat)
    (hwin : ∀ t0 ∈ ts, ∀ t ∈ ts, t - t0 < 60) (i : Nat) (hi : i < ts.length) :
    (runListRequests initRateState c db ts)[i]? =
      some (if i < 5
        then Response.mk 200 (Body.students db.students_db)
        else Response.mk 429 (Body.err "Rate limit exceeded: 5 per 1 minute")) ∧
    (∀ e : Endpoint, isRateLimited e = true ↔ e = Endpoint.listStudents) ∧
    (∀ st : RateState, ∀ c2 t, c2 ≠ c → (rateLimitStep st c t).1 c2 = st c2) := by
  refine ⟨?_, ?_, ?_⟩
  · have h := runListRequests_getElem c db ts hwin initRateState i hi
      (fun t0 h0 => absurd h0 (List.not_mem_nil t0))
    simpa [initRateState] using h
  · intro e
    cases e <;> simp [isRateLimited]
  · intro st c2 t h
    exact rateLimitStep_other st c c2 t h

/-- Concrete run of claim C8: six list requests from one client inside one
minute — the sixth (index 5) is the first rejected one. -/
theorem C8_witness :
    (runListRequests initRateState "10.0.0.7" dbSample [0, 10, 20, 30, 40, 50])[5]? =
      some (if 5 < 5
        then Response.mk 200 (Body.students dbSample.students_db)
        else Response.mk 429 (Body.err "Rate limit exceeded: 5 per 1 minute")) ∧
    (∀ e : Endpoint, isRateLimited e = true ↔ e = Endpoint.listStudents) ∧
    (∀ st : RateState, ∀ c2 t, c2 ≠ "10.0.0.7" →
      (rateLimitStep st "10.0.0.7" t).1 c2 = st c2) :=
  C8_rate_limit "10.0.0.7" dbSample [0, 10, 20, 30, 40, 50] (by decide) 5 (by decide)

/-- Claim C9: a field sent as an explicit JSON null parses like an absent
field, so the update behaves identically on the two bodies; consequently a
successful update leaves each such field at its stored value — no stored
field can be set to null. -/
theorem C9_null_as_absent (db : Registry) (student_id : Int)
    (fn : JsonField String) (fa : JsonField Int) (fe : JsonField String)
    (fc : JsonField String) :
    update_student db student_id (parseUpdate fn fa fe fc) =
      update_student db student_id
        (parseUpdate (denull fn) (denull fa) (denull fe) (denull fc)) ∧
    (∀ s db2 ret, get_student db student_id = Except.ok s →
      update_student db student_id (parseUpdate fn fa fe fc) = Except.ok (db2, ret) →
      ret.name = (parseField fn).getD s.name ∧
      ret.age = (parseField fa).getD s.age ∧
      ret.email = (parseField fe).getD s.email ∧
      ret.course = (parseField fc).getD s.course) := by
  constructor
  · unfold parseUpdate
    rw [parseField_denull, parseField_denull, parseField_denull, parseField_denull]
  · intro s db2 ret hg hu
    cases hf : findStudent db.students_db student_id with
    | none =>
      rw [get_student_of_none hf] at hg
      exact Except.noConfusion hg
    | some s2 =>
      rw [get_student_of_some hf, Except.ok.injEq] at hg
      rw [update_student_of_some (parseUpdate fn fa fe fc) hf,
        Except.ok.injEq, Prod.mk.injEq] at hu
      obtain ⟨hdb2, hret⟩ := hu
      rw [← hg, ← hret]
      exact ⟨rfl, rfl, rfl, rfl⟩

/-- Claim C10: whenever Get, Update or Delete fails with the 404 error, the
registry the next request sees is exactly the one from before the failing
request: same stored records, same next-id counter. -/
theorem C10_errors_atomic (db : Registry) (student_id : Int) (u : StudentUpdate) :
    (∀ e, get_student db student_id = Except.error e →
      (handle db (Op.get student_id)).1.students_db = db.students_db ∧
      (handle db (Op.get student_id)).1.next_id = db.next_id) ∧
    (∀ e, update_student db student_id u = Except.error e →
      (handle db (Op.update student_id u)).1.students_db = db.students_db ∧
      (handle db (Op.update student_id u)).1.next_id = db.next_id) ∧
    (∀ e, delete_student db student_id = Except.error e →
      (handle db (Op.delete student_id)).1.students_db = db.students_db ∧
      (handle db (Op.delete student_id)).1.next_id = db.next_id) := by
  refine ⟨?_, ?_, ?_⟩
  · intro e he
    have h : (handle db (Op.get student_id)).1 = db := applyOp_get db student_id
    rw [h]
    exact ⟨rfl, rfl⟩
  · intro e he
    cases hf : findStudent db.students_db student_id with
    | none =>
      simp [handle, update_student_of_none u hf]
    | some s2 =>
      rw [update_student_of_some u hf] at he
      exact Except.noConfusion he
  · intro e he
    cases hf : findStudent db.students_db student_id with
    | none =>
      simp [handle, delete_student_of_none hf]
    | some s2 =>
      rw [delete_student_of_some hf] at he
      exact Except.noConfusion he

end StudentApi
